import Mathlib

/-!
Verification of the policy-admission script sandbox (pkg/authorize/scripts/authorizer.go)
and of the kube-cert-manager authorizer scenarios pinned by its test suite.

The Go code is shallowly embedded: the interpreter run is abstracted into an
outcome (clean completion, returned script error, timeout interrupt, or other
abnormal unwind), and the `Admit` entry point is translated into a pure function
that also records its observable trace: the interpreter bindings that were set,
the namespaces fetched through the cache, whether the script phase was reached,
and the request object after the call (the Go code never writes to `cx.Object`;
the apiVersion and kind back-fill is applied to the fresh map produced by the
JSON round-trip in `marshal`).
-/

/-- Error categories of `k8s.io/apimachinery/pkg/util/validation/field` used here. -/
inductive ErrorType where
  | invalid
  | internal
deriving DecidableEq

/-- One structured violation, mirroring `field.Error` (Type, Field, BadValue, Detail).
`field.InternalError` leaves BadValue nil, modelled as `none`. -/
structure FieldError where
  errorType : ErrorType
  field : String
  badValue : Option String
  detail : String
deriving DecidableEq

/-- A JSON value, the interpreter data representation a Go object is marshalled into. -/
inductive JValue where
  | null
  | bool (b : Bool)
  | num (n : Int)
  | str (s : String)
  | arr (elems : List JValue)
  | obj (fields : List (String × JValue))

/-- Result of a Go call: a returned value, or an abnormal unwind carrying its payload. -/
inductive GoResult (α : Type) where
  | ret (a : α)
  | panicked (v : String)
deriving DecidableEq

namespace scripts

/-- The sentinel `errTimeout = errors.New("operation timed out")` of authorizer.go. -/
def errTimeout : String := "operation timed out"

/-- The scripts plugin configuration fields used by Admit and runSafely. -/
structure Config where
  Name : String
  Options : List (String × String)
  Script : String
  Timeout : Int

/-- Modelled from the spec: `NewDefaultConfig` (its file is not under src/; only its
call sites in authorizer.go are). The spec fixes the default timeout to a fixed
default duration, e.g. 5 seconds, given here in nanoseconds (Go time.Duration). -/
def NewDefaultConfig : Config :=
  { Name := "scripts", Options := [], Script := "", Timeout := 5000000000 }

/-- The target object of a request: its namespace (`GetNamespace()`), and the result
of the JSON round-trip performed by `marshal` (which fails on non-serializable data). -/
structure K8sObject where
  getNamespace : String
  marshalled : Except String (List (String × JValue))

/-- `marshal` converts the object into the interpreter representation via a JSON
round-trip; the embedding carries the round-trip result on the object itself. -/
def marshal (o : K8sObject) : Except String (List (String × JValue)) :=
  o.marshalled

/-- The group/version/kind descriptor of the request (`cx.Group`). -/
structure GroupVersionKind where
  group : String
  version : String
  kind : String

/-- The request context: target object, group descriptor, and the namespace lookup
(`utils.GetCachedNamespace` over `cx.Client`/`cx.Cache`), an external collaborator. -/
structure Context where
  object : K8sObject
  group : GroupVersionKind
  fetchNamespace : String → Except String K8sObject

/-- The scripts authorizer: a wrapper around its configuration. -/
structure Authorizer where
  config : Config

/-- One `deny(fieldPath, message, value)` call made by the script (arguments already
stringified by the interpreter, as in `call.Argument(i).String()`). -/
structure DenyCall where
  path : String
  message : String
  value : String
deriving DecidableEq

/-- The abstracted outcome of `e.Run(script)`: clean completion, a returned script
error, the timeout interrupt (which panics the sentinel inside the run), or any
other abnormal unwind. Each carries the deny calls made before the run ended. -/
inductive RunOutcome where
  | ok (denies : List DenyCall)
  | scriptError (msg : String) (denies : List DenyCall)
  | interrupted (denies : List DenyCall)
  | panicOther (v : String) (denies : List DenyCall)

/-- The deny calls accumulated during the run. -/
def RunOutcome.denies : RunOutcome → List DenyCall
  | RunOutcome.ok d => d
  | RunOutcome.scriptError _ d => d
  | RunOutcome.interrupted d => d
  | RunOutcome.panicOther _ d => d

/-- Observable behaviour of `runSafely`: the duration the cancellation timer was
armed with, and the call result (a returned error or a propagated panic). -/
structure RunSafelyResult where
  armedTimeout : Int
  result : GoResult (Option String)

/-- `runSafely` (authorizer.go lines 115-150): arms the timer with the configured
timeout, substituting the default when it is unset or non-positive; recovers a
panic equal to the sentinel into the returned error `errTimeout`; re-raises any
other panic; otherwise returns whatever error `e.Run` returned. -/
def runSafely (timeout : Int) (run : RunOutcome) : RunSafelyResult :=
  let armed := if timeout ≤ 0 then NewDefaultConfig.Timeout else timeout
  let res : GoResult (Option String) :=
    match run with
    | RunOutcome.ok _ => GoResult.ret none
    | RunOutcome.scriptError msg _ => GoResult.ret (some msg)
    | RunOutcome.interrupted _ => GoResult.ret (some errTimeout)
    | RunOutcome.panicOther v _ => GoResult.panicked v
  { armedTimeout := armed, result := res }

/-- `field.InternalError(field.NewPath(""), err)`: an internal-error violation. -/
def internalError (msg : String) : FieldError :=
  { errorType := ErrorType.internal, field := "", badValue := none, detail := msg }

/-- The violation appended by the `deny` host function:
`field.Invalid(field.NewPath(path), value, message)`. -/
def denyToError (d : DenyCall) : FieldError :=
  { errorType := ErrorType.invalid, field := d.path, badValue := some d.value,
    detail := d.message }

def apiVersionKey : String := "apiVersion"
def kindKey : String := "kind"
def cacheKey : String := "cache"
def objectKey : String := "object"
def namespaceKey : String := "namespace"
def logKey : String := "log"
def hasPrefixKey : String := "hasPrefix"
def hasSuffixKey : String := "hasSuffix"
def inDomainKey : String := "inDomain"
def denyKey : String := "deny"

/-- The apiVersion / kind back-fill applied to the marshalled copy (lines 55-60):
each key is added only when absent, apiVersion as `group "/" version`. -/
def backfill (m : List (String × JValue)) (g : GroupVersionKind) :
    List (String × JValue) :=
  let m1 := match m.lookup apiVersionKey with
    | some _ => m
    | none => m ++ [(apiVersionKey, JValue.str (g.group ++ "/" ++ g.version))]
  match m1.lookup kindKey with
  | some _ => m1
  | none => m1 ++ [(kindKey, JValue.str g.kind)]

/-- A value bound into the interpreter with `vm.Set`. -/
inductive BindingValue where
  | opt (v : String)
  | cacheHandle
  | json (m : List (String × JValue))
  | hostFn (name : String)

/-- The host functions bound after the namespace step (lines 84-103). -/
def hostFnBindings : List (String × BindingValue) :=
  [(logKey, BindingValue.hostFn logKey),
   (hasPrefixKey, BindingValue.hostFn hasPrefixKey),
   (hasSuffixKey, BindingValue.hostFn hasSuffixKey),
   (inDomainKey, BindingValue.hostFn inDomainKey),
   (denyKey, BindingValue.hostFn denyKey)]

/-- Observable behaviour of `Admit`: the call result, the interpreter bindings that
were set, the namespaces fetched through the cache, whether the script phase was
reached, and the request object after the call. -/
structure AdmitResult where
  result : GoResult (List FieldError)
  bindings : List (String × BindingValue)
  fetchedNamespaces : List String
  ranScript : Bool
  objectAfter : K8sObject

/-- The tail of `Admit` once all bindings are in place: bind the host functions,
call `runSafely`, and reconcile (an inner error is appended to the accumulated
deny violations as a single internal error; a panic propagates). -/
def runPhase (c : Authorizer) (cx : Context) (run : RunOutcome)
    (bindings : List (String × BindingValue)) (fetched : List String) : AdmitResult :=
  let rs := runSafely c.config.Timeout run
  let res : GoResult (List FieldError) :=
    match rs.result with
    | GoResult.panicked v => GoResult.panicked v
    | GoResult.ret none => GoResult.ret (run.denies.map denyToError)
    | GoResult.ret (some e) =>
        GoResult.ret (run.denies.map denyToError ++ [internalError e])
  { result := res, bindings := bindings ++ hostFnBindings, fetchedNamespaces := fetched,
    ranScript := true, objectAfter := cx.object }

/-- `Admit` (authorizer.go lines 44-112): marshal the object (abort on failure with
one internal error), back-fill apiVersion/kind on the copy, bind options, the cache
handle and the object copy, fetch and bind the namespace when the request is
namespace-scoped (abort on failure), then run the script via `runSafely`. -/
def Admit (c : Authorizer) (cx : Context) (run : RunOutcome) : AdmitResult :=
  match marshal cx.object with
  | Except.error e =>
      { result := GoResult.ret [internalError e], bindings := [],
        fetchedNamespaces := [], ranScript := false, objectAfter := cx.object }
  | Except.ok m =>
      let obj := backfill m cx.group
      let bindings := c.config.Options.map (fun kv => (kv.1, BindingValue.opt kv.2))
          ++ [(cacheKey, BindingValue.cacheHandle), (objectKey, BindingValue.json obj)]
      if cx.object.getNamespace = "" then
        runPhase c cx run bindings []
      else
        match cx.fetchNamespace cx.object.getNamespace with
        | Except.error e =>
            { result := GoResult.ret [internalError e], bindings := bindings,
              fetchedNamespaces := [cx.object.getNamespace], ranScript := false,
              objectAfter := cx.object }
        | Except.ok nsObj =>
            match marshal nsObj with
            | Except.error e =>
                { result := GoResult.ret [internalError e], bindings := bindings,
                  fetchedNamespaces := [cx.object.getNamespace], ranScript := false,
                  objectAfter := cx.object }
            | Except.ok nsm =>
                runPhase c cx run
                  (bindings ++ [(namespaceKey, BindingValue.json nsm)])
                  [cx.object.getNamespace]

/-- `New` (lines 163-169): a nil configuration is replaced by the default; the
returned pair mirrors Go's `(api.Authorize, error)` with a non-nil authorizer. -/
def New (config : Option Config) : Option Authorizer × Option String :=
  let cfg := config.getD NewDefaultConfig
  (some { config := cfg }, none)

/-- `Stop` (lines 227-229): always returns nil. -/
def Stop (_ : Authorizer) : Option String := none

/-- The stages before the script run all succeed: the object marshals, and either
the request is cluster-scoped or the namespace fetch and its marshal succeed. -/
def setupOk (cx : Context) : Prop :=
  (∃ m, marshal cx.object = Except.ok m) ∧
  (cx.object.getNamespace = "" ∨
    ∃ nsObj nsm, cx.fetchNamespace cx.object.getNamespace = Except.ok nsObj ∧
      marshal nsObj = Except.ok nsm)

def gW : GroupVersionKind := { group := "extensions", version := "v1beta1", kind := "Ingress" }

def objClusterW : K8sObject := { getNamespace := "", marshalled := Except.ok [] }

def objBadW : K8sObject := { getNamespace := "", marshalled := Except.error ("bad marshal") }

def objNsW : K8sObject := { getNamespace := "team-a", marshalled := Except.ok [] }

def fetchFailW : String → Except String K8sObject := fun _ => Except.error ("fetch failed")

def cxClusterW : Context := { object := objClusterW, group := gW, fetchNamespace := fetchFailW }

def cxBadW : Context := { object := objBadW, group := gW, fetchNamespace := fetchFailW }

def cxNsFailW : Context := { object := objNsW, group := gW, fetchNamespace := fetchFailW }

def authW : Authorizer :=
  { config := { Name := "test", Options := [], Script := "x", Timeout := 0 } }

def denyW : DenyCall := { path := "spec.x", message := "bad", value := "msg" }

end scripts

namespace kubecertmanager

/-- The kube-cert-manager plugin configuration fields pinned by its tests. -/
structure Config where
  ExternalIngressHostname : String
  HostedDomains : List String

/-- The slice of an ingress object the plugin inspects: the rule hosts in order,
and the object annotations and labels. -/
structure Ingress where
  hosts : List String
  anns : List (String × String)
  labels : List (String × String)

def kcmProviderKey : String := "stable.k8s.psg.io/kcm.provider"
def ingressClassKey : String := "kubernetes.io/ingress.class"
def dnsCheckKey : String :=
  "policy-admission.acp.homeoffice.gov.uk/kubecertmanager/enable-dns-check"
def nginxExternalClass : String := "nginx-external"
def httpChallenge : String := "http"

/-- A host is hosted internally when it equals, or is a subdomain of, one of the
configured hosted domains. -/
def isHostedInternally (cfg : Config) (host : String) : Bool :=
  cfg.HostedDomains.any (fun d => host == d || ("." ++ d).data.isSuffixOf host.data)

def hostFieldPath (i : Nat) : String := "spec.rules[" ++ toString i ++ "].host"

def annFieldPath (k : String) : String := "annotations[" ++ k ++ "]"

def notHostedDetail : String := "domain is not hosted internally and thus denied"

def invalidProviderDetail (p : String) : String :=
  "invalid kube-cert-manager provider type: " ++ p ++ ", expected: http"

def invalidClassDetail : String :=
  "invalid kube-cert-manager provider, expected \x27nginx-external\x27 for a http challenge"

def notPointedDetail (host ext : String) : String :=
  "the hostname: " ++ host ++ " is not pointed to the external ingress dns name " ++ ext

/-- `field.Invalid(field.NewPath(path), value, detail)`. -/
def invalidAt (path value detail : String) : FieldError :=
  { errorType := ErrorType.invalid, field := path, badValue := some value,
    detail := detail }

/-- Modelled from the spec: the kube-cert-manager authorizer's `Admit` (its
authorize.go is not under src/, only its test file). Faithful to the spec's
concrete scenarios and the expectations of TestAuthorizer: internally hosted
ingresses are allowed; an external ingress needs the http challenge provider and
the nginx-external ingress class; the DNS check compares the resolver's answer
for each rule host against the configured external ingress hostname, and is
skipped only when the namespace annotation `enable-dns-check` is exactly
`false` (any other value leaves the check enabled). -/
def Admit (cfg : Config) (ing : Ingress) (nsAnns : List (String × String))
    (resolved : String) : List FieldError :=
  if ing.hosts.all (fun h => isHostedInternally cfg h) then []
  else
    match ing.anns.lookup kcmProviderKey with
    | none =>
        ing.hosts.enum.filterMap (fun p =>
          if isHostedInternally cfg p.2 then none
          else some (invalidAt (hostFieldPath p.1) p.2 notHostedDetail))
    | some provider =>
        if provider ≠ httpChallenge then
          [invalidAt (annFieldPath kcmProviderKey) provider (invalidProviderDetail provider)]
        else if ing.anns.lookup ingressClassKey ≠ some nginxExternalClass then
          [invalidAt (annFieldPath ingressClassKey)
            ((ing.anns.lookup ingressClassKey).getD "") invalidClassDetail]
        else if nsAnns.lookup dnsCheckKey = some ("false") then []
        else
          ing.hosts.enum.filterMap (fun p =>
            if resolved = cfg.ExternalIngressHostname then none
            else some (invalidAt (hostFieldPath p.1) p.2
              (notPointedDetail p.2 cfg.ExternalIngressHostname)))

/-- The configuration of TestAuthorizer. -/
def testConfig : Config :=
  { ExternalIngressHostname := "ingress.acp.example.com", HostedDomains := ["example.com"] }

/-- The ingress of the DNS-check test cases: one rule host `site.nohere.com`,
the external ingress class and the http challenge provider. -/
def testIngress : Ingress :=
  { hosts := ["site.nohere.com"],
    anns := [(ingressClassKey, nginxExternalClass), (kcmProviderKey, httpChallenge)],
    labels := [("stable.k8s.psg.io/kcm.class", "default")] }

end kubecertmanager

/-- Helper: under a successful setup the result of `Admit` is determined by the
`runSafely` outcome (denies become invalid violations; an inner error appends one
internal error; a panic propagates), and the script phase is reached. -/
theorem Admit_result_setup (c : scripts.Authorizer) (cx : scripts.Context)
    (run : scripts.RunOutcome) (h : scripts.setupOk cx) :
    (scripts.Admit c cx run).result =
      (match (scripts.runSafely c.config.Timeout run).result with
       | GoResult.panicked v => GoResult.panicked v
       | GoResult.ret none => GoResult.ret (run.denies.map scripts.denyToError)
       | GoResult.ret (some e) =>
           GoResult.ret (run.denies.map scripts.denyToError ++ [scripts.internalError e])) ∧
    (scripts.Admit c cx run).ranScript = true := by
  obtain ⟨⟨m, hm⟩, hcase⟩ := h
  by_cases hn : cx.object.getNamespace = ""
  · constructor <;> simp [scripts.Admit, hm, hn, scripts.runPhase]
  · rcases hcase with hre | ⟨nsObj, nsm, hf, hnsm⟩
    · exact absurd hre hn
    · constructor <;> simp [scripts.Admit, hm, hn, hf, hnsm, scripts.runPhase]

/-- Claim C1: for every script, including one that loops forever, an invocation of
the script plugin's Admit returns: when the script exceeds its timeout (the
interrupt unwinds the run with the sentinel), runSafely returns the sentinel
"operation timed out" error, and Admit surfaces it as exactly one internal-error
Violation appended to the Violations accumulated before the interrupt. -/
theorem Admit_interrupted_single_timeout_error (c : scripts.Authorizer)
    (cx : scripts.Context) (denies : List scripts.DenyCall) (h : scripts.setupOk cx) :
    (scripts.runSafely c.config.Timeout (scripts.RunOutcome.interrupted denies)).result =
      GoResult.ret (some scripts.errTimeout) ∧
    (scripts.Admit c cx (scripts.RunOutcome.interrupted denies)).result =
      GoResult.ret (denies.map scripts.denyToError ++
        [scripts.internalError scripts.errTimeout]) := by
  refine ⟨rfl, ?_⟩
  rw [(Admit_result_setup c cx _ h).1]
  rfl

/-- Witness for C1 at a concrete cluster-scoped context with one prior deny call. -/
theorem Admit_interrupted_single_timeout_error_witness :
    (scripts.Admit scripts.authW scripts.cxClusterW
        (scripts.RunOutcome.interrupted [scripts.denyW])).result =
      GoResult.ret [scripts.denyToError scripts.denyW,
        scripts.internalError scripts.errTimeout] := by
  have h := Admit_interrupted_single_timeout_error scripts.authW scripts.cxClusterW
    [scripts.denyW] ⟨⟨[], rfl⟩, Or.inl rfl⟩
  simpa using h.2

/-- Claim C2 counterexample: at a concrete input whose run ends in a non-timeout
abnormal unwind, Admit's call does not return a violation list at all: the panic
propagates out of Admit, contrary to the claim that it is caught and converted. -/
theorem Admit_panicOther_propagates_cex :
    (scripts.Admit scripts.authW scripts.cxClusterW
        (scripts.RunOutcome.panicOther ("boom") [])).result =
      GoResult.panicked ("boom") := rfl

/-- Claim C2 (amended): an error returned by the interpreter run (a script error)
is converted into exactly one internal-error Violation carrying the failure
message, appended to the accumulated violations; but an abnormal unwind other
than the timeout sentinel is re-raised at the sandbox boundary and propagates
out of Admit. -/
theorem Admit_script_error_converted_other_unwind_reraised (c : scripts.Authorizer)
    (cx : scripts.Context) (msg v : String) (denies : List scripts.DenyCall)
    (h : scripts.setupOk cx) :
    (scripts.Admit c cx (scripts.RunOutcome.scriptError msg denies)).result =
      GoResult.ret (denies.map scripts.denyToError ++ [scripts.internalError msg]) ∧
    (scripts.Admit c cx (scripts.RunOutcome.panicOther v denies)).result =
      GoResult.panicked v := by
  constructor
  · rw [(Admit_result_setup c cx _ h).1]
    rfl
  · rw [(Admit_result_setup c cx _ h).1]
    rfl

/-- Witness for the amended C2 at a concrete context and script error. -/
theorem Admit_script_error_converted_witness :
    (scripts.Admit scripts.authW scripts.cxClusterW
        (scripts.RunOutcome.scriptError ("ReferenceError: y is not defined") [])).result =
      GoResult.ret [scripts.internalError ("ReferenceError: y is not defined")] ∧
    (scripts.Admit scripts.authW scripts.cxClusterW
        (scripts.RunOutcome.panicOther ("unexpected") [])).result =
      GoResult.panicked ("unexpected") := by
  have h := Admit_script_error_converted_other_unwind_reraised scripts.authW
    scripts.cxClusterW ("ReferenceError: y is not defined") ("unexpected") []
    ⟨⟨[], rfl⟩, Or.inl rfl⟩
  exact ⟨by simpa using h.1, h.2⟩

/-- Claim C3: if the JSON conversion of the target object fails, Admit aborts
before the script is executed and returns exactly one internal-error Violation
carrying the conversion error; no interpreter is run (its outcome is irrelevant,
the script phase is never reached, and no bindings are set). -/
theorem Admit_marshal_error_aborts (c : scripts.Authorizer) (cx : scripts.Context)
    (e : String) (run run2 : scripts.RunOutcome)
    (h : scripts.marshal cx.object = Except.error e) :
    (scripts.Admit c cx run).result = GoResult.ret [scripts.internalError e] ∧
    (scripts.Admit c cx run).ranScript = false ∧
    (scripts.Admit c cx run).bindings = [] ∧
    scripts.Admit c cx run = scripts.Admit c cx run2 := by
  refine ⟨?_, ?_, ?_, ?_⟩ <;> simp [scripts.Admit, h]

/-- Witness for C3 at a concrete object whose marshal fails. -/
theorem Admit_marshal_error_aborts_witness :
    (scripts.Admit scripts.authW scripts.cxBadW (scripts.RunOutcome.ok [])).result =
      GoResult.ret [scripts.internalError ("bad marshal")] ∧
    (scripts.Admit scripts.authW scripts.cxBadW (scripts.RunOutcome.ok [])).ranScript =
      false := by
  have h := Admit_marshal_error_aborts scripts.authW scripts.cxBadW ("bad marshal")
    (scripts.RunOutcome.ok []) (scripts.RunOutcome.interrupted []) rfl
  exact ⟨h.1, h.2.1⟩

/-- Claim C4: for a namespace-scoped request (non-empty namespace, with the object
itself marshalling and no configured option shadowing the namespace binding name),
Admit fetches the namespace metadata through the cache; a failed fetch yields one
internal-error Violation and the script never runs; a successful fetch binds the
marshalled namespace into the interpreter. For a cluster-scoped request no fetch
occurs and no namespace binding is set. -/
theorem Admit_namespace_fetch_behaviour (c : scripts.Authorizer) (cx : scripts.Context)
    (run : scripts.RunOutcome) (m : List (String × JValue))
    (hm : scripts.marshal cx.object = Except.ok m)
    (hk : scripts.namespaceKey ∉ c.config.Options.map Prod.fst) :
    (cx.object.getNamespace ≠ "" →
      (scripts.Admit c cx run).fetchedNamespaces = [cx.object.getNamespace] ∧
      (∀ e, cx.fetchNamespace cx.object.getNamespace = Except.error e →
        (scripts.Admit c cx run).result = GoResult.ret [scripts.internalError e] ∧
        (scripts.Admit c cx run).ranScript = false) ∧
      (∀ nsObj nsm, cx.fetchNamespace cx.object.getNamespace = Except.ok nsObj →
        scripts.marshal nsObj = Except.ok nsm →
        (scripts.namespaceKey, scripts.BindingValue.json nsm) ∈
          (scripts.Admit c cx run).bindings)) ∧
    (cx.object.getNamespace = "" →
      (scripts.Admit c cx run).fetchedNamespaces = [] ∧
      ∀ v, (scripts.namespaceKey, v) ∉ (scripts.Admit c cx run).bindings) := by
  constructor
  · intro hn
    cases hf : cx.fetchNamespace cx.object.getNamespace with
    | error e0 =>
        refine ⟨?_, ?_, ?_⟩
        · simp [scripts.Admit, hm, hn, hf]
        · intro e he
          cases he
          constructor <;> simp [scripts.Admit, hm, hn, hf]
        · intro nsObj nsm hok
          cases hok
    | ok nsObj0 =>
        cases hms : scripts.marshal nsObj0 with
        | error e0 =>
            refine ⟨?_, ?_, ?_⟩
            · simp [scripts.Admit, hm, hn, hf, hms]
            · intro e he
              cases he
            · intro nsObj nsm hok hmok
              cases hok
              rw [hms] at hmok
              cases hmok
        | ok nsm0 =>
            refine ⟨?_, ?_, ?_⟩
            · simp [scripts.Admit, hm, hn, hf, hms, scripts.runPhase]
            · intro e he
              cases he
            · intro nsObj nsm hok hmok
              cases hok
              rw [hms] at hmok
              cases hmok
              simp [scripts.Admit, hm, hn, hf, hms, scripts.runPhase]
  · intro hn
    constructor
    · simp [scripts.Admit, hm, hn, scripts.runPhase]
    · intro v hv
      simp only [scripts.Admit, hm, hn, scripts.runPhase, scripts.hostFnBindings] at hv
      simp [List.mem_append, List.mem_map] at hv
      rcases hv with ⟨a, b, hab, h1, _⟩ | ⟨h1, _⟩ | ⟨h1, _⟩ | ⟨h1, _⟩ | ⟨h1, _⟩ |
        ⟨h1, _⟩ | ⟨h1, _⟩ | ⟨h1, _⟩
      · exact hk (h1 ▸ List.mem_map_of_mem Prod.fst hab)
      all_goals exact absurd h1 (by decide)

/-- Witness for C4 at a concrete namespace-scoped context whose fetch fails. -/
theorem Admit_namespace_fetch_behaviour_witness :
    (scripts.Admit scripts.authW scripts.cxNsFailW
        (scripts.RunOutcome.ok [])).fetchedNamespaces = ["team-a"] ∧
    (scripts.Admit scripts.authW scripts.cxNsFailW (scripts.RunOutcome.ok [])).result =
      GoResult.ret [scripts.internalError ("fetch failed")] ∧
    (scripts.Admit scripts.authW scripts.cxNsFailW
        (scripts.RunOutcome.ok [])).ranScript = false := by
  have h := Admit_namespace_fetch_behaviour scripts.authW scripts.cxNsFailW
    (scripts.RunOutcome.ok []) [] rfl (by simp [scripts.authW])
  have h1 := h.1 (by decide)
  exact ⟨h1.1, (h1.2.1 ("fetch failed") rfl).1, (h1.2.1 ("fetch failed") rfl).2⟩

/-- Claim C5: each deny(fieldPath, message, value) call appends exactly one
Violation of category invalid with that field path, message and stringified
value; a clean run yields exactly the deny-call violations, so a script that
calls deny once yields exactly one such Violation and the decision is not allow. -/
theorem Admit_deny_appends_violation (c : scripts.Authorizer) (cx : scripts.Context)
    (d : scripts.DenyCall) (h : scripts.setupOk cx) :
    (∀ denies, (scripts.Admit c cx (scripts.RunOutcome.ok denies)).result =
      GoResult.ret (denies.map scripts.denyToError)) ∧
    scripts.denyToError d =
      { errorType := ErrorType.invalid, field := d.path, badValue := some d.value,
        detail := d.message } ∧
    (scripts.Admit c cx (scripts.RunOutcome.ok [d])).result =
      GoResult.ret [scripts.denyToError d] ∧
    GoResult.ret [scripts.denyToError d] ≠
      (GoResult.ret [] : GoResult (List FieldError)) := by
  refine ⟨fun denies => ?_, rfl, ?_, by simp⟩
  · rw [(Admit_result_setup c cx _ h).1]
    rfl
  · rw [(Admit_result_setup c cx _ h).1]
    rfl

/-- Witness for C5: the spec scenario deny("spec.x", "bad", "msg") called once. -/
theorem Admit_deny_appends_violation_witness :
    (scripts.Admit scripts.authW scripts.cxClusterW
        (scripts.RunOutcome.ok [scripts.denyW])).result =
      GoResult.ret [(⟨ErrorType.invalid, "spec.x", some ("msg"), "bad"⟩ : FieldError)] := by
  have h := Admit_deny_appends_violation scripts.authW scripts.cxClusterW scripts.denyW
    ⟨⟨[], rfl⟩, Or.inl rfl⟩
  rw [h.2.2.1]
  rfl

/-- Claim C6: runSafely arms the cancellation timer with the fixed default duration
from NewDefaultConfig when the configured timeout is unset or non-positive, and
with exactly the configured value when it is positive. -/
theorem runSafely_armed_timeout (t : Int) (run : scripts.RunOutcome) :
    (scripts.runSafely t run).armedTimeout =
      if t ≤ 0 then scripts.NewDefaultConfig.Timeout else t := rfl

/-- Claim C9: Admit leaves the shared request object unchanged; the apiVersion and
kind back-fill is applied only to the fresh marshalled copy, which is the value
injected into the interpreter under the `object` binding. -/
theorem Admit_object_unchanged (c : scripts.Authorizer) (cx : scripts.Context)
    (run : scripts.RunOutcome) (m : List (String × JValue))
    (hm : scripts.marshal cx.object = Except.ok m) :
    (scripts.Admit c cx run).objectAfter = cx.object ∧
    (scripts.objectKey, scripts.BindingValue.json (scripts.backfill m cx.group)) ∈
      (scripts.Admit c cx run).bindings := by
  by_cases hn : cx.object.getNamespace = ""
  · constructor <;> simp [scripts.Admit, hm, hn, scripts.runPhase]
  · cases hf : cx.fetchNamespace cx.object.getNamespace with
    | error e => constructor <;> simp [scripts.Admit, hm, hn, hf]
    | ok nsObj =>
        cases hms : scripts.marshal nsObj with
        | error e => constructor <;> simp [scripts.Admit, hm, hn, hf, hms]
        | ok nsm =>
            constructor <;> simp [scripts.Admit, hm, hn, hf, hms, scripts.runPhase]

/-- Witness for C9 at a concrete cluster-scoped context. -/
theorem Admit_object_unchanged_witness :
    (scripts.Admit scripts.authW scripts.cxClusterW
        (scripts.RunOutcome.ok [])).objectAfter = scripts.cxClusterW.object ∧
    (scripts.objectKey, scripts.BindingValue.json (scripts.backfill [] scripts.gW)) ∈
      (scripts.Admit scripts.authW scripts.cxClusterW
        (scripts.RunOutcome.ok [])).bindings := by
  have h := Admit_object_unchanged scripts.authW scripts.cxClusterW
    (scripts.RunOutcome.ok []) [] rfl
  exact ⟨h.1, h.2⟩

/-- Claim C10: the constructor New never fails: for every input, including a nil
configuration (replaced by the default configuration), it returns a non-nil
authorizer and a nil error; and Stop always returns nil. -/
theorem New_never_fails_and_Stop_nil :
    (∀ config : Option scripts.Config,
      ((scripts.New config).1.isSome = true ∧ (scripts.New config).2 = none)) ∧
    scripts.New none = (some { config := scripts.NewDefaultConfig }, none) ∧
    ∀ a : scripts.Authorizer, scripts.Stop a = none := by
  refine ⟨fun config => ?_, rfl, fun a => rfl⟩
  cases config <;> simp [scripts.New]

/-- Helper: evaluation of the kube-cert-manager Admit on the test fixture along the
DNS-check path, for any namespace annotations that do not disable the check and
any resolver answer different from the configured external ingress hostname. -/
theorem kcm_Admit_dns_path (nsAnns : List (String × String)) (resolved : String)
    (hd : nsAnns.lookup kubecertmanager.dnsCheckKey ≠ some ("false"))
    (hr : resolved ≠ ("ingress.acp.example.com")) :
    kubecertmanager.Admit kubecertmanager.testConfig kubecertmanager.testIngress
        nsAnns resolved =
      [kubecertmanager.invalidAt ("spec.rules[0].host") ("site.nohere.com")
        ("the hostname: site.nohere.com is not pointed to the external ingress dns name ingress.acp.example.com")] := by
  have h1 : kubecertmanager.testIngress.anns.lookup kubecertmanager.kcmProviderKey =
      some kubecertmanager.httpChallenge := by decide
  have h2 : kubecertmanager.testConfig.ExternalIngressHostname =
      ("ingress.acp.example.com") := rfl
  simp +decide [kubecertmanager.Admit, h1, h2, hd, hr]

/-- Claim C7: for the kube-cert-manager plugin with external-ingress hostname
ingress.acp.example.com, an ingress with host site.nohere.com and a resolver
returning bad.hostname is denied with exactly one Violation on spec.rules[0].host
with bad value site.nohere.com and the not-pointed detail; when the resolver
returns exactly the configured external ingress hostname, the ingress is allowed. -/
theorem kcm_dns_resolution_scenario :
    kubecertmanager.Admit kubecertmanager.testConfig kubecertmanager.testIngress []
        ("bad.hostname") =
      [kubecertmanager.invalidAt ("spec.rules[0].host") ("site.nohere.com")
        ("the hostname: site.nohere.com is not pointed to the external ingress dns name ingress.acp.example.com")] ∧
    kubecertmanager.Admit kubecertmanager.testConfig kubecertmanager.testIngress []
      kubecertmanager.testConfig.ExternalIngressHostname = [] := by
  exact ⟨by decide, by decide⟩

/-- Claim C8: with the namespace annotation enable-dns-check set to false the DNS
check is skipped and the non-resolving host is allowed; with the annotation set to
any other value (such as true or an unrecognized value) the check runs and the
host is denied. -/
theorem kcm_dns_check_toggle (v : String) (hv : v ≠ ("false")) :
    kubecertmanager.Admit kubecertmanager.testConfig kubecertmanager.testIngress
        [(kubecertmanager.dnsCheckKey, ("false"))] ("bad.hostname") = [] ∧
    kubecertmanager.Admit kubecertmanager.testConfig kubecertmanager.testIngress
        [(kubecertmanager.dnsCheckKey, v)] ("bad.hostname") =
      [kubecertmanager.invalidAt ("spec.rules[0].host") ("site.nohere.com")
        ("the hostname: site.nohere.com is not pointed to the external ingress dns name ingress.acp.example.com")] := by
  refine ⟨by decide, ?_⟩
  refine kcm_Admit_dns_path _ _ ?_ (by decide)
  simp [List.lookup, hv]

/-- Witness for C8 at the unrecognized annotation value used by the test suite. -/
theorem kcm_dns_check_toggle_witness :
    kubecertmanager.Admit kubecertmanager.testConfig kubecertmanager.testIngress
        [(kubecertmanager.dnsCheckKey, ("false"))] ("bad.hostname") = [] ∧
    kubecertmanager.Admit kubecertmanager.testConfig kubecertmanager.testIngress
        [(kubecertmanager.dnsCheckKey, ("bad_value"))] ("bad.hostname") =
      [kubecertmanager.invalidAt ("spec.rules[0].host") ("site.nohere.com")
        ("the hostname: site.nohere.com is not pointed to the external ingress dns name ingress.acp.example.com")] :=
  kcm_dns_check_toggle ("bad_value") (by decide)
